import Mathlib

/-!
# Verification of the SalesAnalyzer aggregation core

A shallow embedding of `final_gst.py` (class `EcommerceAnalyzer` and the
derived-metric computation in `main`).  Tables are modelled as a list of
column headers plus a list of rows; each row is an association list from
column name to cell.  Cells carry the values that matter to the analysis:
text, exact rationals (the mathematical reading of the CSV numerics),
dates, month periods, and a null marker standing for pandas `NaN`/`NaT`.

Modelling notes, matched line by line against `final_gst.py`:

* `df[c]` on a missing column raises `KeyError`; fallible operations
  therefore live in `Except String`.  `analyze_meesho_data` accesses all
  its columns unconditionally, so it is embedded as a single guard over
  the set of required columns followed by the pure computation; the guard
  holds exactly when none of the source's accesses would raise.
* `Series.sum()` skips `NaN` entries (`skipna=True`), so summation maps a
  null cell to `0`.
* `groupby(k)` uses the pandas default `dropna=True`: rows whose key cell
  is null belong to no group, and there is one group per remaining
  distinct key value.  Group order (pandas sorts keys) is abstracted: we
  keep first-occurrence order, and no theorem below depends on the order
  of groups.
* `.round(2)` rounds half to even (numpy), embedded as `round2`.
* `self.meesho_sales['month'] = ...` mutates the stored table, so
  `analyze_meesho_data` returns the possibly mutated table next to the
  analysis.  (On the error paths Python would also have mutated the
  stored frame before raising; no claim depends on that, and the
  embedding only reports the mutation on success.)
* `pd.to_datetime(col, errors='coerce')` maps each unparseable value to
  `NaT`.  The date grammar itself is pandas-internal, so the loaders take
  the elementwise parser as a parameter; the `errors='coerce'` policy —
  failures become null instead of aborting — is what is embedded.
* `.dt.to_period('M')` truncates a date to its month and maps `NaT` to
  `NaT`.  (On a column that holds neither dates nor `NaT` the `.dt`
  accessor would raise, but every table reaching the analyzer came
  through the loader, which leaves such a column only when it is not a
  designated date column.)
-/

/-- One cell of a platform table. `null` is pandas `NaN`/`NaT`. -/
inductive Cell where
  | null
  | str (s : String)
  | num (q : ℚ)
  | date (y : Int) (m : Nat) (d : Nat)
  | month (y : Int) (m : Nat)
deriving DecidableEq, Repr

/-- Numeric reading of a cell, as used by `Series.sum()` (`skipna=True`):
null contributes `0`, as does any non-numeric cell. -/
def Cell.toQ : Cell → ℚ
  | num q => q
  | _ => 0

/-- `.dt.to_period('M')`: truncate a date to its month; `NaT` stays `NaT`. -/
def Cell.toMonth : Cell → Cell
  | date y m _ => month y m
  | _ => null

/-- A row: column name ↦ cell. -/
abbrev Row := List (String × Cell)

/-- Value of a row at a column (null when the row carries no such pair). -/
def Row.get : Row → String → Cell
  | [], _ => Cell.null
  | (k, v) :: r, c => if k = c then v else Row.get r c

/-- Whether the row carries a pair for column `c`. -/
def Row.hasCol : Row → String → Bool
  | [], _ => false
  | (k, _) :: r, c => if k = c then true else Row.hasCol r c

/-- Overwrite a header/cell pair when its key is `c`. -/
def replPair (c : String) (v : Cell) (p : String × Cell) : String × Cell :=
  if p.1 = c then (c, v) else p

/-- Column assignment on one row: overwrite every pair keyed `c`, or append
the pair when absent (pandas appends new columns at the end). -/
def Row.set (r : Row) (c : String) (v : Cell) : Row :=
  if r.hasCol c then r.map (replPair c v)
  else r ++ [(c, v)]

/-- An in-memory table: the DataFrame's column index plus its rows. -/
structure Table where
  cols : List String
  rows : List Row
deriving DecidableEq, Repr

/-- `df[c] = series` where the series is computed rowwise by `f`:
registers the column and assigns each row. -/
def Table.setColBy (t : Table) (c : String) (f : Row → Cell) : Table :=
  { cols := if c ∈ t.cols then t.cols else t.cols ++ [c]
  , rows := t.rows.map (fun r => r.set c (f r)) }

/-- Decidable equality of fallible results (not provided by core). -/
instance {e a : Type} [DecidableEq e] [DecidableEq a] : DecidableEq (Except e a) := fun x y =>
  match x, y with
  | .ok u, .ok v => if h : u = v then isTrue (by rw [h]) else isFalse (by simp [h])
  | .error u, .error v => if h : u = v then isTrue (by rw [h]) else isFalse (by simp [h])
  | .ok _, .error _ => isFalse (by simp)
  | .error _, .ok _ => isFalse (by simp)

/-- Round half to even (numpy's rounding mode, used by `.round`). -/
def roundHalfEven (q : ℚ) : ℤ :=
  if q - ⌊q⌋ < 1/2 then ⌊q⌋
  else if 1/2 < q - ⌊q⌋ then ⌊q⌋ + 1
  else if ⌊q⌋ % 2 = 0 then ⌊q⌋ else ⌊q⌋ + 1

/-- `.round(2)`: round to two decimal places. -/
def round2 (q : ℚ) : ℚ := (roundHalfEven (100 * q) : ℚ) / 100

/-- The numeric column of a table, read rowwise. -/
def colVals (t : Table) (c : String) : List ℚ :=
  t.rows.map (fun r => (r.get c).toQ)

/-- `df[c].sum()` (no rounding applied by the source on these scalars). -/
def colSumRaw (t : Table) (c : String) : ℚ := (colVals t c).sum

/-- The group keys of `df.groupby(g)`: distinct non-null values of `g`
(pandas default `dropna=True` discards rows with a null key). -/
def groupKeys (t : Table) (g : String) : List Cell :=
  ((t.rows.map (fun r => r.get g)).filter (fun k => k ≠ Cell.null)).dedup

/-- Sum of column `c` over the rows of the group keyed `k`. -/
def groupSum (t : Table) (g : String) (k : Cell) (c : String) : ℚ :=
  ((t.rows.filter (fun r => r.get g = k)).map (fun r => (r.get c).toQ)).sum

/-- `df.groupby(g).agg({c : 'sum' for c in cs}).round(2)`:
one output row per group key, with the rounded sums of the columns. -/
def groupAggRaw (t : Table) (g : String) (cs : List String) : List (Cell × List ℚ) :=
  (groupKeys t g).map (fun k => (k, cs.map (fun c => round2 (groupSum t g k c))))

/-- The three columns every Meesho `groupby(...).agg` sums. -/
def meeshoAggCols : List String := ["total_invoice_value", "tax_amount", "quantity"]

/-- Columns `analyze_meesho_data` accesses unconditionally: a `KeyError`
is raised when any of them is missing. -/
def meeshoRequiredCols : List String :=
  ["total_invoice_value", "tax_amount", "total_taxable_sale_value",
   "end_customer_state_new", "quantity", "hsn_code", "gst_rate"]

/-- The `analysis` dict of `analyze_meesho_data`; `monthly` is the key
that is only present when an `order_date` column exists. -/
structure MeeshoAnalysis where
  total_orders : Nat
  total_sales : ℚ
  total_tax : ℚ
  taxable_sales : ℚ
  state_wise : List (Cell × List ℚ)
  monthly : Option (List (Cell × List ℚ))
  product_performance : List (Cell × List ℚ)
  tax_rate_analysis : List (Cell × List ℚ)
deriving DecidableEq, Repr

/-- The side effect of `analyze_meesho_data` on the stored frame:
`self.meesho_sales['month'] = self.meesho_sales['order_date'].dt.to_period('M')`,
executed only when an `order_date` column exists. -/
def meeshoMutate (t : Table) : Table :=
  if "order_date" ∈ t.cols then
    t.setColBy "month" (fun r => (r.get "order_date").toMonth)
  else t

/-- `analyze_meesho_data`, returning the analysis dict together with the
state of `self.meesho_sales` after the call.  The `state_wise` grouping
runs before the month assignment, the `hsn_code` and `gst_rate`
groupings after it, exactly as in the source. -/
def analyze_meesho_data (t : Table) : Except String (MeeshoAnalysis × Table) :=
  if ∀ c ∈ meeshoRequiredCols, c ∈ t.cols then
    .ok ({ total_orders := t.rows.length
         , total_sales := colSumRaw t "total_invoice_value"
         , total_tax := colSumRaw t "tax_amount"
         , taxable_sales := colSumRaw t "total_taxable_sale_value"
         , state_wise := groupAggRaw t "end_customer_state_new" meeshoAggCols
         , monthly := if "order_date" ∈ t.cols
             then some (groupAggRaw (meeshoMutate t) "month" meeshoAggCols)
             else none
         , product_performance := groupAggRaw (meeshoMutate t) "hsn_code" meeshoAggCols
         , tax_rate_analysis := groupAggRaw (meeshoMutate t) "gst_rate" meeshoAggCols }
        , meeshoMutate t)
  else .error "KeyError"

/-- The three columns every Amazon `groupby(...).agg` sums. -/
def amazonAggCols : List String := ["Invoice Amount", "Total Tax Amount", "Quantity"]

/-- Columns `analyze_amazon_data` accesses unconditionally once the
shipment partition is non-empty. -/
def amazonRequiredCols : List String :=
  ["Invoice Amount", "Total Tax Amount", "Tax Exclusive Gross",
   "Ship To State", "Quantity", "Hsn/sac"]

/-- The TCS columns, summed only when present (`if col in shipments.columns`). -/
def tcsColumns : List String :=
  ["Tcs Igst Amount", "Tcs Cgst Amount", "Tcs Sgst Amount", "Tcs Utgst Amount"]

/-- `df[df['Transaction Type'] == ty]`: the sub-table of rows whose
transaction type equals `ty` (same column index, filtered rows). -/
def txFilter (t : Table) (ty : String) : Table :=
  { cols := t.cols
  , rows := t.rows.filter (fun r => r.get "Transaction Type" = Cell.str ty) }

/-- The part of the Amazon `analysis` dict computed only inside
`if not shipments.empty:`. -/
structure AmazonShipmentStats where
  total_sales : ℚ
  total_tax : ℚ
  tax_exclusive_gross : ℚ
  state_wise : List (Cell × List ℚ)
  monthly : Option (List (Cell × List ℚ))
  product_performance : List (Cell × List ℚ)
  total_tcs : ℚ
deriving DecidableEq, Repr

/-- The `analysis` dict of `analyze_amazon_data`: the three partition
counts are always present; everything else only when some shipment row
exists. -/
structure AmazonAnalysis where
  total_shipments : Nat
  total_refunds : Nat
  total_cancellations : Nat
  shipmentStats : Option AmazonShipmentStats
deriving DecidableEq, Repr

/-- `shipments['month'] = shipments['Order Date'].dt.to_period('M')` —
executed on the filtered copy, so the stored `amazon_data` is unchanged. -/
def amazonMutate (s : Table) : Table :=
  if "Order Date" ∈ s.cols then
    s.setColBy "month" (fun r => (r.get "Order Date").toMonth)
  else s

/-- `analyze_amazon_data`.  The month assignment happens on the filtered
copy `shipments`; assigning the `month` column leaves every other column
of that copy unchanged, so the sums and the non-month groupings are
computed on `ship` directly. -/
def analyze_amazon_data (t : Table) : Except String AmazonAnalysis :=
  if "Transaction Type" ∈ t.cols then
    if (txFilter t "Shipment").rows.isEmpty then
      .ok { total_shipments := (txFilter t "Shipment").rows.length
          , total_refunds := (txFilter t "Refund").rows.length
          , total_cancellations := (txFilter t "Cancel").rows.length
          , shipmentStats := none }
    else if ∀ c ∈ amazonRequiredCols, c ∈ t.cols then
      .ok { total_shipments := (txFilter t "Shipment").rows.length
          , total_refunds := (txFilter t "Refund").rows.length
          , total_cancellations := (txFilter t "Cancel").rows.length
          , shipmentStats := some (
            { total_sales := colSumRaw (txFilter t "Shipment") "Invoice Amount"
            , total_tax := colSumRaw (txFilter t "Shipment") "Total Tax Amount"
            , tax_exclusive_gross := colSumRaw (txFilter t "Shipment") "Tax Exclusive Gross"
            , state_wise := groupAggRaw (txFilter t "Shipment") "Ship To State" amazonAggCols
            , monthly := if "Order Date" ∈ t.cols
                then some (groupAggRaw (amazonMutate (txFilter t "Shipment")) "month" amazonAggCols)
                else none
            , product_performance := groupAggRaw (txFilter t "Shipment") "Hsn/sac" amazonAggCols
            , total_tcs :=
                ((tcsColumns.filter (fun c => c ∈ t.cols)).map
                  (fun c => colSumRaw (txFilter t "Shipment") c)).sum }) }
    else .error "KeyError"
  else .error "KeyError"

/-- One row of the `comparisons` dict built by
`create_comparison_dashboard`. -/
structure ComparisonRow where
  Sales : ℚ
  Tax : ℚ
  Orders : Nat
deriving DecidableEq, Repr

/-- The Meesho block of `create_comparison_dashboard`: when a Meesho
table is loaded, its analysis (a non-empty, hence truthy, dict) supplies
the row; the dict keys used here always exist on success. -/
def meeshoComparison (meesho : Option Table) :
    Except String (List (String × ComparisonRow)) :=
  match meesho with
  | none => .ok []
  | some t => (analyze_meesho_data t).map (fun p =>
      [("Meesho", { Sales := p.1.total_sales, Tax := p.1.total_tax
                  , Orders := p.1.total_orders })])

/-- The Amazon block of `create_comparison_dashboard`: the row applies
the `.get(key, 0)` defaults for the keys absent when there is no
shipment row. -/
def amazonComparison (amazon : Option Table) :
    Except String (List (String × ComparisonRow)) :=
  match amazon with
  | none => .ok []
  | some t => (analyze_amazon_data t).map (fun a =>
      [("Amazon",
        { Sales := (a.shipmentStats.map AmazonShipmentStats.total_sales).getD 0
        , Tax := (a.shipmentStats.map AmazonShipmentStats.total_tax).getD 0
        , Orders := a.total_shipments })])

/-- The Flipkart block of `create_comparison_dashboard`: a hard-coded
`(0, 0, len)` row when the table is loaded and non-empty
(`self.flipkart_data is not None and not self.flipkart_data.empty`). -/
def flipkartComparison (flipkart : Option Table) : List (String × ComparisonRow) :=
  match flipkart with
  | some t => if t.rows.isEmpty then []
      else [("Flipkart", { Sales := 0, Tax := 0, Orders := t.rows.length })]
  | none => []

/-- `create_comparison_dashboard`, as a function of the three stored
tables (`self.meesho_sales`, `self.amazon_data`, `self.flipkart_data`),
one block per platform in source order. -/
def create_comparison_dashboard (meesho amazon flipkart : Option Table) :
    Except String (List (String × ComparisonRow)) := do
  let mrows ← meeshoComparison meesho
  let arows ← amazonComparison amazon
  pure (mrows ++ arows ++ flipkartComparison flipkart)

/-- `str.strip()`: drop leading and trailing whitespace (an executable
model of the library routine, over the string's character list). -/
def stripStr (s : String) : String :=
  String.mk (((s.data.dropWhile Char.isWhitespace).reverse.dropWhile Char.isWhitespace).reverse)

/-- `df.columns = df.columns.str.strip()`: the header rename, applied to
the column index and to the keys of every row (they name the same
headers). -/
def stripTable (raw : Table) : Table :=
  { cols := raw.cols.map stripStr
  , rows := raw.rows.map (fun r => r.map (fun p => (stripStr p.1, p.2))) }

/-- `df[c] = pd.to_datetime(df[c], errors='coerce')` for one column, when
present: each cell is parsed elementwise and parse failures become null
(`NaT`) instead of aborting. -/
def coerceColumn (t : Table) (c : String) (parse : Cell → Option Cell) : Table :=
  if c ∈ t.cols then t.setColBy c (fun r => (parse (r.get c)).getD Cell.null)
  else t

/-- `load_meesho_data` on an already-read CSV table (the `pd.read_csv`
byte-level parse is outside this core): strip headers, then coerce
`order_date`.  `parse` is the elementwise date parser of
`pd.to_datetime` (library-internal grammar, taken as a parameter). -/
def load_meesho_data (parse : Cell → Option Cell) (raw : Table) : Table :=
  coerceColumn (stripTable raw) "order_date" parse

/-- The date columns `load_amazon_data` coerces, in source order. -/
def amazonDateCols : List String := ["Invoice Date", "Order Date", "Shipment Date"]

/-- `load_amazon_data` on an already-read CSV table: strip headers, then
coerce each designated date column that is present. -/
def load_amazon_data (parse : Cell → Option Cell) (raw : Table) : Table :=
  amazonDateCols.foldl (fun t c => coerceColumn t c parse) (stripTable raw)

/-- Fixture builder: one Meesho sales row (column layout of the sample
export: all required columns plus `order_date`). -/
def mkMeeshoRow (st : Cell) (inv tax taxable qty : ℚ) (hsn rate od : Cell) : Row :=
  [("total_invoice_value", Cell.num inv), ("tax_amount", Cell.num tax),
   ("total_taxable_sale_value", Cell.num taxable), ("end_customer_state_new", st),
   ("quantity", Cell.num qty), ("hsn_code", hsn), ("gst_rate", rate),
   ("order_date", od)]

/-- The Meesho example table of the spec (UP 100/18, UP 50/9, MH 200/36),
with an `order_date` column. -/
def demoMeesho : Table :=
  { cols := meeshoRequiredCols ++ ["order_date"]
  , rows :=
    [ mkMeeshoRow (Cell.str "UP") 100 18 82 1 (Cell.str "6109") (Cell.num 18) (Cell.date 2024 1 5)
    , mkMeeshoRow (Cell.str "UP") 50 9 41 1 (Cell.str "6109") (Cell.num 18) (Cell.date 2024 1 20)
    , mkMeeshoRow (Cell.str "MH") 200 36 164 2 (Cell.str "6204") (Cell.num 18) (Cell.date 2024 2 2) ] }

/-- A Meesho table whose single row has a null destination state. -/
def demoMeeshoNull : Table :=
  { cols := meeshoRequiredCols
  , rows := [[("total_invoice_value", Cell.num 100), ("tax_amount", Cell.num 18),
              ("total_taxable_sale_value", Cell.num 82), ("end_customer_state_new", Cell.null),
              ("quantity", Cell.num 1), ("hsn_code", Cell.str "6109"), ("gst_rate", Cell.num 18)]] }

/-- A Meesho table whose single invoice value `0.005` is not a two-decimal
quantity. -/
def demoMeeshoHalfCent : Table :=
  { cols := meeshoRequiredCols
  , rows := [[("total_invoice_value", Cell.num (1/200)), ("tax_amount", Cell.num 0),
              ("total_taxable_sale_value", Cell.num 0), ("end_customer_state_new", Cell.str "UP"),
              ("quantity", Cell.num 1), ("hsn_code", Cell.str "6109"), ("gst_rate", Cell.num 18)]] }

/-- A Meesho table missing the `total_invoice_value` column. -/
def demoMeeshoMissing : Table :=
  { cols := ["tax_amount", "total_taxable_sale_value", "end_customer_state_new",
             "quantity", "hsn_code", "gst_rate"]
  , rows := [[("tax_amount", Cell.num 18), ("total_taxable_sale_value", Cell.num 82),
              ("end_customer_state_new", Cell.str "UP"), ("quantity", Cell.num 1),
              ("hsn_code", Cell.str "6109"), ("gst_rate", Cell.num 18)]] }

/-- Fixture builder: one Amazon MTR row. -/
def mkAmazonRow (ty : Cell) (amt tax teg qty : ℚ) (st hsn od : Cell) : Row :=
  [("Transaction Type", ty), ("Invoice Amount", Cell.num amt),
   ("Total Tax Amount", Cell.num tax), ("Tax Exclusive Gross", Cell.num teg),
   ("Ship To State", st), ("Quantity", Cell.num qty), ("Hsn/sac", hsn),
   ("Order Date", od)]

/-- The Amazon example table of the spec: two Shipment rows (100, 200) and
one Refund row (50); no TCS columns. -/
def demoAmazon : Table :=
  { cols := ["Transaction Type"] ++ amazonRequiredCols ++ ["Order Date"]
  , rows :=
    [ mkAmazonRow (Cell.str "Shipment") 100 18 82 1 (Cell.str "DL") (Cell.str "8517") (Cell.date 2024 3 1)
    , mkAmazonRow (Cell.str "Shipment") 200 36 164 1 (Cell.str "KA") (Cell.str "8517") (Cell.date 2024 3 9)
    , mkAmazonRow (Cell.str "Refund") 50 9 41 1 (Cell.str "DL") (Cell.str "8517") (Cell.date 2024 3 12) ] }

/-- The Amazon analysis of `demoAmazon` (defined by evaluation; the
concrete value is pinned down by the witness proofs). -/
def demoAmazonAnalysis : AmazonAnalysis :=
  (analyze_amazon_data demoAmazon).toOption.getD
    { total_shipments := 0, total_refunds := 0, total_cancellations := 0, shipmentStats := none }

/-- The shipment-block statistics of `demoAmazon`, by evaluation. -/
def demoAmazonStats : AmazonShipmentStats :=
  demoAmazonAnalysis.shipmentStats.getD
    { total_sales := 0, total_tax := 0, tax_exclusive_gross := 0, state_wise := []
    , monthly := none, product_performance := [], total_tcs := 0 }

/-- The Meesho analysis and mutated table of `demoMeesho`, by evaluation. -/
def demoMeeshoResult : MeeshoAnalysis × Table :=
  (analyze_meesho_data demoMeesho).toOption.getD
    ({ total_orders := 0, total_sales := 0, total_tax := 0, taxable_sales := 0
     , state_wise := [], monthly := none, product_performance := [], tax_rate_analysis := [] }
    , demoMeesho)

/-- A loaded Flipkart table with zero data rows (`df.empty` is true). -/
def demoFlipEmpty : Table := { cols := ["Invoiced Amount"], rows := [] }

/-- A loaded Flipkart table with one row carrying a monetary value. -/
def demoFlip : Table :=
  { cols := ["Invoiced Amount"], rows := [[("Invoiced Amount", Cell.num 999)]] }

/-- The comparison dashboard over all three demo tables, by evaluation. -/
def demoDashboard : List (String × ComparisonRow) :=
  (create_comparison_dashboard (some demoMeesho) (some demoAmazon) (some demoFlip)).toOption.getD []

/-- The comparison dashboard when only Flipkart data is loaded. -/
def demoFlipDash : List (String × ComparisonRow) :=
  (create_comparison_dashboard none none (some demoFlip)).toOption.getD []

/-- A raw (pre-load) table whose headers carry whitespace and whose
`order_date` column holds unparseable text. -/
def demoRawDates : Table :=
  { cols := [" order_date ", "total_invoice_value"]
  , rows := [[(" order_date ", Cell.str "not a date"), ("total_invoice_value", Cell.num 10)],
             [(" order_date ", Cell.str "13/13/2024"), ("total_invoice_value", Cell.num 20)]] }

/-! ## Association-row lemmas -/

@[simp] theorem Row.get_nil (c : String) : Row.get [] c = Cell.null := rfl

theorem Row.get_cons (k : String) (v : Cell) (r : Row) (c : String) :
    Row.get ((k, v) :: r) c = if k = c then v else Row.get r c := rfl

@[simp] theorem Row.hasCol_nil (c : String) : Row.hasCol [] c = false := rfl

theorem Row.hasCol_cons (k : String) (v : Cell) (r : Row) (c : String) :
    Row.hasCol ((k, v) :: r) c = if k = c then true else Row.hasCol r c := rfl

theorem replPair_fst (c : String) (v : Cell) (p : String × Cell) :
    (replPair c v p).1 = p.1 := by
  unfold replPair
  split
  · rename_i h; exact h.symm
  · rfl

theorem Row.get_eq_null_of_not_hasCol {r : Row} {c : String} (h : Row.hasCol r c = false) :
    Row.get r c = Cell.null := by
  induction r with
  | nil => rfl
  | cons p r ih =>
    obtain ⟨k, v⟩ := p
    rw [Row.hasCol_cons] at h
    rw [Row.get_cons]
    by_cases hk : k = c
    · rw [if_pos hk] at h; exact absurd h (by simp)
    · rw [if_neg hk] at h
      rw [if_neg hk, ih h]

theorem Row.not_hasCol_iff {r : Row} {c : String} :
    Row.hasCol r c = false ↔ ∀ p ∈ r, p.1 ≠ c := by
  induction r with
  | nil => simp
  | cons p r ih =>
    obtain ⟨k, v⟩ := p
    rw [Row.hasCol_cons]
    by_cases hk : k = c
    · simp [hk]
    · simp [if_neg hk, ih, hk]

theorem Row.hasCol_append (r s : Row) (c : String) :
    Row.hasCol (r ++ s) c = (Row.hasCol r c || Row.hasCol s c) := by
  induction r with
  | nil => simp
  | cons p r ih =>
    obtain ⟨k, v⟩ := p
    rw [List.cons_append, Row.hasCol_cons, Row.hasCol_cons]
    by_cases hk : k = c
    · simp [hk]
    · simp [if_neg hk, ih]

theorem Row.get_append (r s : Row) (c : String) :
    Row.get (r ++ s) c = if Row.hasCol r c then Row.get r c else Row.get s c := by
  induction r with
  | nil => simp
  | cons p r ih =>
    obtain ⟨k, v⟩ := p
    rw [List.cons_append, Row.get_cons, Row.get_cons, Row.hasCol_cons]
    by_cases hk : k = c
    · simp [hk]
    · simp [if_neg hk, ih]

theorem Row.hasCol_repl (r : Row) (c c' : String) (v : Cell) :
    Row.hasCol (r.map (replPair c v)) c' = Row.hasCol r c' := by
  induction r with
  | nil => rfl
  | cons p r ih =>
    obtain ⟨k, w⟩ := p
    rw [List.map_cons]
    by_cases hk : k = c
    · rw [show replPair c v (k, w) = (c, v) by simp [replPair, hk]]
      rw [Row.hasCol_cons, Row.hasCol_cons, hk, ih]
    · rw [show replPair c v (k, w) = (k, w) by simp [replPair, hk]]
      rw [Row.hasCol_cons, Row.hasCol_cons, ih]

theorem Row.get_repl_ne (r : Row) (c c' : String) (v : Cell) (h : c' ≠ c) :
    Row.get (r.map (replPair c v)) c' = Row.get r c' := by
  induction r with
  | nil => rfl
  | cons p r ih =>
    obtain ⟨k, w⟩ := p
    rw [List.map_cons]
    by_cases hk : k = c
    · rw [show replPair c v (k, w) = (c, v) by simp [replPair, hk]]
      rw [Row.get_cons, Row.get_cons, hk]
      rw [if_neg (fun hc => h hc.symm), if_neg (fun hc => h hc.symm), ih]
    · rw [show replPair c v (k, w) = (k, w) by simp [replPair, hk]]
      rw [Row.get_cons, Row.get_cons, ih]

theorem Row.get_repl_self (r : Row) (c : String) (v : Cell) (h : Row.hasCol r c = true) :
    Row.get (r.map (replPair c v)) c = v := by
  induction r with
  | nil => simp at h
  | cons p r ih =>
    obtain ⟨k, w⟩ := p
    rw [Row.hasCol_cons] at h
    rw [List.map_cons]
    by_cases hk : k = c
    · rw [show replPair c v (k, w) = (c, v) by simp [replPair, hk]]
      rw [Row.get_cons, if_pos rfl]
    · rw [if_neg hk] at h
      rw [show replPair c v (k, w) = (k, w) by simp [replPair, hk]]
      rw [Row.get_cons, if_neg hk, ih h]

theorem Row.get_set_self (r : Row) (c : String) (v : Cell) :
    Row.get (Row.set r c v) c = v := by
  unfold Row.set
  by_cases h : Row.hasCol r c
  · rw [if_pos h]; exact Row.get_repl_self r c v h
  · rw [if_neg h, Row.get_append]
    rw [if_neg h, Row.get_cons, if_pos rfl]

theorem Row.get_set_ne (r : Row) (c c' : String) (v : Cell) (h : c' ≠ c) :
    Row.get (Row.set r c v) c' = Row.get r c' := by
  unfold Row.set
  by_cases hc : Row.hasCol r c
  · rw [if_pos hc]; exact Row.get_repl_ne r c c' v h
  · rw [if_neg hc, Row.get_append]
    by_cases h' : Row.hasCol r c'
    · rw [if_pos h']
    · rw [if_neg h', Row.get_cons, if_neg (fun hc' => h hc'.symm), Row.get_nil,
        Row.get_eq_null_of_not_hasCol (by simpa using h')]

theorem Row.hasCol_set_self (r : Row) (c : String) (v : Cell) :
    Row.hasCol (Row.set r c v) c = true := by
  unfold Row.set
  by_cases h : Row.hasCol r c
  · rw [if_pos h, Row.hasCol_repl]; exact h
  · rw [if_neg h, Row.hasCol_append, Row.hasCol_cons, if_pos rfl]
    simp

theorem Row.repl_eq_self {r : Row} {c : String} {v : Cell}
    (h : ∀ p ∈ r, p.1 = c → p.2 = v) :
    r.map (replPair c v) = r := by
  induction r with
  | nil => rfl
  | cons p r ih =>
    obtain ⟨k, w⟩ := p
    rw [List.map_cons, ih (fun q hq => h q (by simp [hq]))]
    by_cases hk : k = c
    · have hv : w = v := h (k, w) (by simp) hk
      rw [show replPair c v (k, w) = (c, v) by simp [replPair, hk], hk, hv]
    · rw [show replPair c v (k, w) = (k, w) by simp [replPair, hk]]

theorem Row.set_pairs {r : Row} {c : String} {v : Cell} :
    ∀ p ∈ Row.set r c v, p.1 = c → p.2 = v := by
  unfold Row.set
  by_cases hc : Row.hasCol r c
  · rw [if_pos hc]
    intro p hp hpc
    obtain ⟨q, hq, hrepl⟩ := List.mem_map.mp hp
    by_cases hk : q.1 = c
    · rw [show replPair c v q = (c, v) by simp [replPair, hk]] at hrepl
      rw [← hrepl]
    · rw [show replPair c v q = q by simp [replPair, hk]] at hrepl
      rw [← hrepl] at hpc
      exact absurd hpc hk
  · rw [if_neg hc]
    intro p hp hpc
    rcases List.mem_append.mp hp with hl | hr
    · exact absurd hpc (Row.not_hasCol_iff.mp (by simpa using hc) p hl)
    · rw [List.mem_singleton.mp hr]

theorem Row.set_of_pairs {s : Row} {c : String} {v : Cell}
    (h : Row.hasCol s c = true) (hp : ∀ p ∈ s, p.1 = c → p.2 = v) :
    Row.set s c v = s := by
  unfold Row.set
  rw [if_pos h]
  exact Row.repl_eq_self hp

theorem Row.set_set_self (r : Row) (c : String) (v : Cell) :
    Row.set (Row.set r c v) c v = Row.set r c v :=
  Row.set_of_pairs (Row.hasCol_set_self r c v) Row.set_pairs

/-! ## Table lemmas: column assignment leaves other columns untouched -/

theorem Table.mem_setColBy_cols {t : Table} {c : String} (f : Row → Cell) {c' : String} :
    c' ∈ (t.setColBy c f).cols ↔ (c' ∈ t.cols ∨ c' = c) := by
  unfold Table.setColBy
  by_cases h : c ∈ t.cols
  · rw [if_pos h]
    constructor
    · exact Or.inl
    · rintro (hl | rfl)
      · exact hl
      · exact h
  · rw [if_neg h]
    simp

theorem Table.length_rows_setColBy (t : Table) (c : String) (f : Row → Cell) :
    (t.setColBy c f).rows.length = t.rows.length := by
  simp [Table.setColBy]

theorem colVals_setColBy_ne (t : Table) (c : String) (f : Row → Cell) {c' : String}
    (h : c' ≠ c) : colVals (t.setColBy c f) c' = colVals t c' := by
  unfold colVals Table.setColBy
  rw [List.map_map]
  exact List.map_congr_left (fun r _ => by
    simp only [Function.comp_apply, Row.get_set_ne _ _ _ _ h])

theorem colSumRaw_setColBy_ne (t : Table) (c : String) (f : Row → Cell) {c' : String}
    (h : c' ≠ c) : colSumRaw (t.setColBy c f) c' = colSumRaw t c' := by
  unfold colSumRaw
  rw [colVals_setColBy_ne t c f h]

theorem groupKeys_setColBy_ne (t : Table) (c : String) (f : Row → Cell) {g : String}
    (h : g ≠ c) : groupKeys (t.setColBy c f) g = groupKeys t g := by
  unfold groupKeys Table.setColBy
  rw [List.map_map]
  congr 1
  congr 1
  exact List.map_congr_left (fun r _ => by
    simp only [Function.comp_apply, Row.get_set_ne _ _ _ _ h])

theorem groupSum_setColBy_ne (t : Table) (c : String) (f : Row → Cell) {g : String}
    {k : Cell} {c' : String} (hg : g ≠ c) (hc : c' ≠ c) :
    groupSum (t.setColBy c f) g k c' = groupSum t g k c' := by
  unfold groupSum Table.setColBy
  rw [List.filter_map, List.map_map]
  have hfil : List.filter ((fun r => decide (Row.get r g = k)) ∘ (fun r => Row.set r c (f r))) t.rows
      = List.filter (fun r => decide (Row.get r g = k)) t.rows :=
    List.filter_congr (fun r _ => by
      simp only [Function.comp_apply, Row.get_set_ne _ _ _ _ hg])
  rw [hfil]
  congr 1
  exact List.map_congr_left (fun r _ => by
    simp only [Function.comp_apply, Row.get_set_ne _ _ _ _ hc])

theorem groupAggRaw_setColBy_ne (t : Table) (c : String) (f : Row → Cell) {g : String}
    {cs : List String} (hg : g ≠ c) (hcs : ∀ c' ∈ cs, c' ≠ c) :
    groupAggRaw (t.setColBy c f) g cs = groupAggRaw t g cs := by
  unfold groupAggRaw
  rw [groupKeys_setColBy_ne t c f hg]
  exact List.map_congr_left (fun k _ => by
    congr 1
    exact List.map_congr_left (fun c' hc' => by
      rw [groupSum_setColBy_ne t c f hg (hcs c' hc')]))

theorem Table.setColBy_setColBy (t : Table) (c : String) (f : Row → Cell)
    (hf : ∀ r : Row, f (Row.set r c (f r)) = f r) :
    (t.setColBy c f).setColBy c f = t.setColBy c f := by
  have hmem : c ∈ (t.setColBy c f).cols := (Table.mem_setColBy_cols f).mpr (Or.inr rfl)
  have hrows : (t.setColBy c f).rows.map (fun r => Row.set r c (f r)) = (t.setColBy c f).rows := by
    show (t.rows.map (fun r => Row.set r c (f r))).map (fun r => Row.set r c (f r))
        = t.rows.map (fun r => Row.set r c (f r))
    rw [List.map_map]
    exact List.map_congr_left (fun r _ => by
      simp only [Function.comp_apply]
      rw [hf r, Row.set_set_self])
  conv_lhs => rw [Table.setColBy]
  rw [if_pos hmem, hrows]

/-! ## Lemmas about the month-column mutation -/

theorem meeshoMutate_rows_length (t : Table) :
    (meeshoMutate t).rows.length = t.rows.length := by
  unfold meeshoMutate
  split
  · exact Table.length_rows_setColBy t _ _
  · rfl

theorem mem_meeshoMutate_cols {t : Table} {c : String} (h : c ≠ "month") :
    c ∈ (meeshoMutate t).cols ↔ c ∈ t.cols := by
  unfold meeshoMutate
  split
  · rw [Table.mem_setColBy_cols]
    exact ⟨fun hm => hm.resolve_right h, Or.inl⟩
  · rfl

theorem colSumRaw_meeshoMutate {t : Table} {c : String} (h : c ≠ "month") :
    colSumRaw (meeshoMutate t) c = colSumRaw t c := by
  unfold meeshoMutate
  split
  · exact colSumRaw_setColBy_ne t _ _ h
  · rfl

theorem groupAggRaw_meeshoMutate {t : Table} {g : String} {cs : List String}
    (hg : g ≠ "month") (hcs : ∀ c' ∈ cs, c' ≠ "month") :
    groupAggRaw (meeshoMutate t) g cs = groupAggRaw t g cs := by
  unfold meeshoMutate
  split
  · exact groupAggRaw_setColBy_ne t _ _ hg hcs
  · rfl

theorem meeshoMutate_idem (t : Table) :
    meeshoMutate (meeshoMutate t) = meeshoMutate t := by
  by_cases h : "order_date" ∈ t.cols
  · have h' : "order_date" ∈ (meeshoMutate t).cols :=
      (mem_meeshoMutate_cols (by decide)).mpr h
    rw [show meeshoMutate t = t.setColBy "month" (fun r => (Row.get r "order_date").toMonth)
        from if_pos h] at h' ⊢
    rw [meeshoMutate, if_pos h']
    exact Table.setColBy_setColBy t _ _ (fun r => by
      rw [Row.get_set_ne _ _ _ _ (by decide)])
  · have ht : meeshoMutate t = t := by rw [meeshoMutate, if_neg h]
    rw [ht, ht]

/-! ## Inversion of the analyzers on success -/

theorem analyze_meesho_ok {t : Table} {p : MeeshoAnalysis × Table}
    (h : analyze_meesho_data t = .ok p) :
    (∀ c ∈ meeshoRequiredCols, c ∈ t.cols) ∧
    p.2 = meeshoMutate t ∧
    p.1 = { total_orders := t.rows.length
          , total_sales := colSumRaw t "total_invoice_value"
          , total_tax := colSumRaw t "tax_amount"
          , taxable_sales := colSumRaw t "total_taxable_sale_value"
          , state_wise := groupAggRaw t "end_customer_state_new" meeshoAggCols
          , monthly := if "order_date" ∈ t.cols
              then some (groupAggRaw (meeshoMutate t) "month" meeshoAggCols)
              else none
          , product_performance := groupAggRaw (meeshoMutate t) "hsn_code" meeshoAggCols
          , tax_rate_analysis := groupAggRaw (meeshoMutate t) "gst_rate" meeshoAggCols } := by
  unfold analyze_meesho_data at h
  split at h
  · rename_i hreq
    obtain rfl : _ = p := Except.ok.inj h
    exact ⟨hreq, rfl, rfl⟩
  · exact absurd h (by simp)

theorem analyze_amazon_ok {t : Table} {an : AmazonAnalysis}
    (h : analyze_amazon_data t = .ok an) :
    "Transaction Type" ∈ t.cols ∧
    an.total_shipments = (txFilter t "Shipment").rows.length ∧
    an.total_refunds = (txFilter t "Refund").rows.length ∧
    an.total_cancellations = (txFilter t "Cancel").rows.length ∧
    ((txFilter t "Shipment").rows.isEmpty = true → an.shipmentStats = none) ∧
    ((txFilter t "Shipment").rows.isEmpty = false →
      (∀ c ∈ amazonRequiredCols, c ∈ t.cols) ∧
      an.shipmentStats = some
        { total_sales := colSumRaw (txFilter t "Shipment") "Invoice Amount"
        , total_tax := colSumRaw (txFilter t "Shipment") "Total Tax Amount"
        , tax_exclusive_gross := colSumRaw (txFilter t "Shipment") "Tax Exclusive Gross"
        , state_wise := groupAggRaw (txFilter t "Shipment") "Ship To State" amazonAggCols
        , monthly := if "Order Date" ∈ t.cols
            then some (groupAggRaw (amazonMutate (txFilter t "Shipment")) "month" amazonAggCols)
            else none
        , product_performance := groupAggRaw (txFilter t "Shipment") "Hsn/sac" amazonAggCols
        , total_tcs := ((tcsColumns.filter (fun c => c ∈ t.cols)).map
            (fun c => colSumRaw (txFilter t "Shipment") c)).sum }) := by
  unfold analyze_amazon_data at h
  split at h
  case isFalse => exact absurd h (by simp)
  case isTrue htt =>
    split at h
    case isTrue hempty =>
      obtain rfl : _ = an := Except.ok.inj h
      refine ⟨htt, rfl, rfl, rfl, fun _ => rfl, fun hne => absurd hempty (by simp [hne])⟩
    case isFalse hempty =>
      split at h
      case isFalse => exact absurd h (by simp)
      case isTrue hreq =>
        obtain rfl : _ = an := Except.ok.inj h
        exact ⟨htt, rfl, rfl, rfl, fun he => absurd he (by simp [hempty]),
          fun _ => ⟨hreq, rfl⟩⟩

/-! ## Rounding lemmas -/

/-- Two-decimal values, i.e. integer multiples of `1/100`. -/
def IsCentile (q : ℚ) : Prop := ∃ n : ℤ, q = n / 100

theorem roundHalfEven_intCast (n : ℤ) : roundHalfEven (n : ℚ) = n := by
  unfold roundHalfEven
  rw [Int.floor_intCast]
  rw [if_pos (by norm_num)]

theorem round2_centile (q : ℚ) : IsCentile (round2 q) :=
  ⟨roundHalfEven (100 * q), rfl⟩

theorem round2_eq_self {q : ℚ} (h : IsCentile q) : round2 q = q := by
  obtain ⟨n, rfl⟩ := h
  unfold round2
  rw [show (100 : ℚ) * (n / 100) = (n : ℚ) by field_simp]
  rw [roundHalfEven_intCast]

theorem IsCentile.add {a b : ℚ} (ha : IsCentile a) (hb : IsCentile b) :
    IsCentile (a + b) := by
  obtain ⟨m, rfl⟩ := ha
  obtain ⟨n, rfl⟩ := hb
  exact ⟨m + n, by push_cast; ring⟩

theorem IsCentile.sum {l : List ℚ} (h : ∀ q ∈ l, IsCentile q) : IsCentile l.sum := by
  induction l with
  | nil => exact ⟨0, by norm_num⟩
  | cons a l ih =>
    rw [List.sum_cons]
    exact (h a (by simp)).add (ih (fun q hq => h q (by simp [hq])))

/-! ## Summing a list by groups -/

theorem sum_map_ite_eq {ks : List Cell} (hnd : ks.Nodup) {a : Cell} (ha : a ∈ ks) (x : ℚ) :
    (ks.map (fun k => if a = k then x else 0)).sum = x := by
  induction ks with
  | nil => simp at ha
  | cons k ks ih =>
    rw [List.map_cons, List.sum_cons]
    rcases List.mem_cons.mp ha with rfl | hmem
    · rw [if_pos rfl]
      have : ∀ k' ∈ ks, (if a = k' then x else 0) = 0 := fun k' hk' => by
        rw [if_neg (fun heq : a = k' => (List.nodup_cons.mp hnd).1 (heq ▸ hk'))]
      rw [List.map_congr_left this]
      simp
    · rw [if_neg (fun heq : a = k => (List.nodup_cons.mp hnd).1 (heq ▸ hmem))]
      rw [ih (List.nodup_cons.mp hnd).2 hmem]
      ring

/-- Summing a value over every group, where the groups are indexed by a
duplicate-free key list covering every row, equals summing over all rows. -/
theorem sum_groups (l : List Row) (keyf : Row → Cell) (v : Row → ℚ) (ks : List Cell)
    (hnd : ks.Nodup) (hmem : ∀ r ∈ l, keyf r ∈ ks) :
    (ks.map (fun k => ((l.filter (fun r => keyf r = k)).map v).sum)).sum
      = (l.map v).sum := by
  induction l with
  | nil => simp
  | cons r l ih =>
    have hsplit : ∀ k : Cell,
        (((r :: l).filter (fun r' => keyf r' = k)).map v).sum
          = (if keyf r = k then v r else 0) + ((l.filter (fun r' => keyf r' = k)).map v).sum := by
      intro k
      rw [List.filter_cons]
      by_cases hk : keyf r = k
      · rw [if_pos (by simp [hk]), if_pos hk, List.map_cons, List.sum_cons]
      · rw [if_neg (by simp [hk]), if_neg hk, zero_add]
    rw [List.map_congr_left (fun k _ => hsplit k)]
    rw [List.sum_map_add]
    rw [ih (fun r' hr' => hmem r' (by simp [hr']))]
    rw [List.map_cons, List.sum_cons]
    congr 1
    have : (ks.map (fun k => if keyf r = k then v r else 0)).sum = v r :=
      sum_map_ite_eq hnd (hmem r (by simp)) (v r)
    exact this

/-! ## Group-key lemmas -/

theorem groupKeys_nodup (t : Table) (g : String) : (groupKeys t g).Nodup :=
  List.nodup_dedup _

theorem mem_groupKeys {t : Table} {g : String} {k : Cell} :
    k ∈ groupKeys t g ↔ k ≠ Cell.null ∧ k ∈ t.rows.map (fun r => Row.get r g) := by
  unfold groupKeys
  rw [List.mem_dedup, List.mem_filter]
  simp only [decide_eq_true_eq]
  exact ⟨fun h => ⟨h.2, h.1⟩, fun h => ⟨h.2, h.1⟩⟩

theorem get_mem_groupKeys {t : Table} {g : String} {r : Row}
    (hr : r ∈ t.rows) (hnn : Row.get r g ≠ Cell.null) :
    Row.get r g ∈ groupKeys t g :=
  mem_groupKeys.mpr ⟨hnn, List.mem_map_of_mem _ hr⟩

/-- The grouping invariant of one grouped aggregate: one group per
distinct non-null value of the grouping column `g` among `rows` (the
rows `groupby` received), null-keyed rows dropped. -/
def GroupedBy (gt : List (Cell × List ℚ)) (rows : List Row) (g : String) : Prop :=
  (gt.map Prod.fst).Nodup ∧
  ∀ k, k ∈ gt.map Prod.fst ↔ (k ≠ Cell.null ∧ k ∈ rows.map (fun r => Row.get r g))

/-- With no null keys, the per-group sums add up to the whole column. -/
theorem sum_groupSum {t : Table} {g : String} (c : String)
    (hall : ∀ r ∈ t.rows, Row.get r g ≠ Cell.null) :
    ((groupKeys t g).map (fun k => groupSum t g k c)).sum = colSumRaw t c := by
  unfold groupSum colSumRaw colVals
  exact sum_groups t.rows (fun r => Row.get r g) (fun r => (Row.get r c).toQ)
    (groupKeys t g) (groupKeys_nodup t g)
    (fun r hr => get_mem_groupKeys hr (hall r hr))


/-! ## Inversion of the comparison dashboard on success -/

theorem except_bind_ok {e α β : Type} {x : Except e α} {g : α → Except e β} {b : β}
    (h : (x >>= g) = .ok b) : ∃ u, x = .ok u ∧ g u = .ok b := by
  cases x with
  | error err => exact absurd h (by simp [Bind.bind, Except.bind])
  | ok u => exact ⟨u, rfl, h⟩

theorem meeshoComparison_ok {m : Option Table} {x : List (String × ComparisonRow)}
    (h : meeshoComparison m = .ok x) :
    (m = none ∧ x = []) ∨
    (∃ t p, m = some t ∧ analyze_meesho_data t = .ok p ∧
      x = [("Meesho", { Sales := p.1.total_sales, Tax := p.1.total_tax
                      , Orders := p.1.total_orders })]) := by
  rcases m with _ | t
  · exact Or.inl ⟨rfl, (Except.ok.inj h).symm⟩
  · right
    replace h : (analyze_meesho_data t).map (fun p =>
        [("Meesho", { Sales := p.1.total_sales, Tax := p.1.total_tax
                    , Orders := p.1.total_orders })]) = .ok x := h
    cases hm : analyze_meesho_data t with
    | error e => rw [hm] at h; exact absurd h (by simp [Except.map])
    | ok p =>
      rw [hm] at h
      exact ⟨t, p, rfl, hm, (Except.ok.inj h).symm⟩

theorem amazonComparison_ok {a : Option Table} {x : List (String × ComparisonRow)}
    (h : amazonComparison a = .ok x) :
    (a = none ∧ x = []) ∨
    (∃ t an, a = some t ∧ analyze_amazon_data t = .ok an ∧
      x = [("Amazon",
        { Sales := (an.shipmentStats.map AmazonShipmentStats.total_sales).getD 0
        , Tax := (an.shipmentStats.map AmazonShipmentStats.total_tax).getD 0
        , Orders := an.total_shipments })]) := by
  rcases a with _ | t
  · exact Or.inl ⟨rfl, (Except.ok.inj h).symm⟩
  · right
    replace h : (analyze_amazon_data t).map (fun a =>
        [("Amazon",
          { Sales := (a.shipmentStats.map AmazonShipmentStats.total_sales).getD 0
          , Tax := (a.shipmentStats.map AmazonShipmentStats.total_tax).getD 0
          , Orders := a.total_shipments })]) = .ok x := h
    cases ha : analyze_amazon_data t with
    | error e => rw [ha] at h; exact absurd h (by simp [Except.map])
    | ok an =>
      rw [ha] at h
      exact ⟨t, an, rfl, ha, (Except.ok.inj h).symm⟩

theorem dashboard_ok_parts {m a f : Option Table} {l : List (String × ComparisonRow)}
    (h : create_comparison_dashboard m a f = .ok l) :
    ∃ mrows arows, meeshoComparison m = .ok mrows ∧ amazonComparison a = .ok arows ∧
      l = mrows ++ arows ++ flipkartComparison f := by
  unfold create_comparison_dashboard at h
  obtain ⟨mrows, hm, h⟩ := except_bind_ok h
  obtain ⟨arows, ha, h⟩ := except_bind_ok h
  exact ⟨mrows, arows, hm, ha, (Except.ok.inj h).symm⟩

/-! ## Claim theorems -/

/-- C6 (counterexample): a loaded Flipkart table with columns but no
rows contributes no comparison row — the comparison set is empty even
though the platform has loaded data. -/
theorem claim6_counterexample :
    create_comparison_dashboard none none (some demoFlipEmpty) = .ok [] ∧
    demoFlipEmpty.cols ≠ [] := by decide

/-- C6 (amended): the comparator yields one row per loaded platform in
the order Meesho, Amazon, Flipkart — except that a loaded but empty
Flipkart table contributes no row; with nothing loaded the comparison
set is empty; and when the Amazon analysis has no shipment partition its
monetary aggregates default to `0` in its row. -/
theorem claim6_comparison_rows (m a f : Option Table)
    (l : List (String × ComparisonRow))
    (h : create_comparison_dashboard m a f = .ok l) :
    l.map Prod.fst
      = (if m.isSome then ["Meesho"] else []) ++ (if a.isSome then ["Amazon"] else [])
        ++ (flipkartComparison f).map Prod.fst ∧
    (m = none → a = none → f = none → l = []) ∧
    (∀ t an, a = some t → analyze_amazon_data t = .ok an → an.shipmentStats = none →
      ("Amazon", ({ Sales := 0, Tax := 0, Orders := an.total_shipments } : ComparisonRow)) ∈ l) := by
  obtain ⟨mrows, arows, hm, ha, rfl⟩ := dashboard_ok_parts h
  refine ⟨?_, ?_, ?_⟩
  · rcases meeshoComparison_ok hm with ⟨rfl, rfl⟩ | ⟨t, p, rfl, hmp, rfl⟩ <;>
      rcases amazonComparison_ok ha with ⟨rfl, rfl⟩ | ⟨t', an, rfl, hap, rfl⟩ <;>
      simp
  · rintro rfl rfl rfl
    rcases meeshoComparison_ok hm with ⟨-, rfl⟩ | ⟨t, p, ht, -, -⟩
    · rcases amazonComparison_ok ha with ⟨-, rfl⟩ | ⟨t, an, ht, -, -⟩
      · simp [flipkartComparison]
      · exact absurd ht (by simp)
    · exact absurd ht (by simp)
  · rintro t an rfl han hnone
    rcases amazonComparison_ok ha with ⟨hc, -⟩ | ⟨t', an', ht', han', rfl⟩
    · exact absurd hc (by simp)
    · obtain rfl : t = t' := Option.some.inj ht'
      obtain rfl : an' = an := Except.ok.inj (han'.symm.trans han)
      simp [hnone]

unseal Rat.add Rat.mul Rat.inv Rat.sub in
/-- Witness for C6: with all three demo tables loaded (Flipkart
non-empty), the comparator produces exactly the three platform rows. -/
theorem claim6_witness :
    demoDashboard.map Prod.fst = ["Meesho", "Amazon", "Flipkart"] := by
  have h := (claim6_comparison_rows (some demoMeesho) (some demoAmazon) (some demoFlip)
    demoDashboard (by decide)).1
  rw [h]
  decide

/-- C10: whenever a non-empty Flipkart table is loaded, the Flipkart
comparison row is `(Sales = 0, Tax = 0, Orders = row count)` regardless
of the table's contents — the row depends on nothing but the row count,
so no monetary column of the Flipkart data is read. -/
theorem claim10_flipkart_row (m a : Option Table) (ft : Table)
    (l : List (String × ComparisonRow)) (hne : ft.rows.isEmpty = false)
    (h : create_comparison_dashboard m a (some ft) = .ok l) :
    ("Flipkart", ({ Sales := 0, Tax := 0, Orders := ft.rows.length } : ComparisonRow)) ∈ l ∧
    ∀ p ∈ l, p.1 = "Flipkart" →
      p.2 = { Sales := 0, Tax := 0, Orders := ft.rows.length } := by
  obtain ⟨mrows, arows, hm, ha, rfl⟩ := dashboard_ok_parts h
  have hflip : flipkartComparison (some ft)
      = [("Flipkart", { Sales := 0, Tax := 0, Orders := ft.rows.length })] := by
    show (if ft.rows.isEmpty = true then ([] : List (String × ComparisonRow))
        else [("Flipkart", { Sales := 0, Tax := 0, Orders := ft.rows.length })]) = _
    rw [if_neg (by simp [hne])]
  constructor
  · rw [hflip]
    simp
  · intro p hp hfst
    rcases List.mem_append.mp hp with hp' | hp'
    · rcases List.mem_append.mp hp' with hp'' | hp''
      · rcases meeshoComparison_ok hm with ⟨-, rfl⟩ | ⟨t, q, -, -, rfl⟩
        · simp at hp''
        · rw [List.mem_singleton.mp hp''] at hfst
          simp at hfst
      · rcases amazonComparison_ok ha with ⟨-, rfl⟩ | ⟨t, an, -, -, rfl⟩
        · simp at hp''
        · rw [List.mem_singleton.mp hp''] at hfst
          simp at hfst
    · rw [hflip] at hp'
      rw [List.mem_singleton.mp hp']

/-- Witness for C10: the one-row Flipkart demo table holds a `999`
monetary value, yet its comparison row is `(0, 0, 1)`. -/
theorem claim10_witness :
    ("Flipkart", ({ Sales := 0, Tax := 0, Orders := demoFlip.rows.length } : ComparisonRow))
      ∈ demoFlipDash :=
  (claim10_flipkart_row none none demoFlip demoFlipDash (by decide) (by decide)).1

/-- C7: the Amazon analyzer partitions rows by `Transaction Type` into
Shipment / Refund / Cancel counts, and every summed monetary metric
(`total_sales`, `total_tax`, `tax_exclusive_gross`) ranges over the
Shipment partition only. -/
theorem claim7_amazon_partition (t : Table) (an : AmazonAnalysis)
    (h : analyze_amazon_data t = .ok an) :
    an.total_shipments
      = (t.rows.filter (fun r => Row.get r "Transaction Type" = Cell.str "Shipment")).length ∧
    an.total_refunds
      = (t.rows.filter (fun r => Row.get r "Transaction Type" = Cell.str "Refund")).length ∧
    an.total_cancellations
      = (t.rows.filter (fun r => Row.get r "Transaction Type" = Cell.str "Cancel")).length ∧
    (∀ s, an.shipmentStats = some s →
      s.total_sales
        = ((t.rows.filter (fun r => Row.get r "Transaction Type" = Cell.str "Shipment")).map
            (fun r => (Row.get r "Invoice Amount").toQ)).sum ∧
      s.total_tax
        = ((t.rows.filter (fun r => Row.get r "Transaction Type" = Cell.str "Shipment")).map
            (fun r => (Row.get r "Total Tax Amount").toQ)).sum ∧
      s.tax_exclusive_gross
        = ((t.rows.filter (fun r => Row.get r "Transaction Type" = Cell.str "Shipment")).map
            (fun r => (Row.get r "Tax Exclusive Gross").toQ)).sum) := by
  obtain ⟨-, h1, h2, h3, hn, hs⟩ := analyze_amazon_ok h
  refine ⟨h1, h2, h3, ?_⟩
  intro s hsome
  cases he : (txFilter t "Shipment").rows.isEmpty with
  | true => rw [hn he] at hsome; cases hsome
  | false =>
    obtain ⟨-, hstats⟩ := hs he
    obtain rfl := Option.some.inj (hstats.symm.trans hsome)
    exact ⟨rfl, rfl, rfl⟩

unseal Rat.add Rat.mul Rat.inv Rat.sub in
/-- Witness for C7, the spec's example: two Shipment rows (100, 200) and
one Refund row (50) yield 2 shipments, 1 refund, and total sales 300
(the refund excluded). -/
theorem claim7_witness :
    demoAmazonAnalysis.total_shipments = 2 ∧ demoAmazonAnalysis.total_refunds = 1 ∧
    (demoAmazonAnalysis.shipmentStats.map AmazonShipmentStats.total_sales).getD 0 = 300 := by
  obtain ⟨h1, h2, -, -⟩ := claim7_amazon_partition demoAmazon demoAmazonAnalysis (by decide)
  refine ⟨?_, ?_, ?_⟩
  · rw [h1]; decide
  · rw [h2]; decide
  · decide

/-! ## Loader lemmas -/

theorem coerceColumn_rows_length (t : Table) (c : String) (parse : Cell → Option Cell) :
    (coerceColumn t c parse).rows.length = t.rows.length := by
  unfold coerceColumn
  split
  · exact Table.length_rows_setColBy t _ _
  · rfl

theorem coerceColumn_cols (t : Table) (c : String) (parse : Cell → Option Cell) :
    (coerceColumn t c parse).cols = t.cols := by
  unfold coerceColumn
  split
  · show (if c ∈ t.cols then t.cols else t.cols ++ [c]) = t.cols
    rw [if_pos (by assumption)]
  · rfl

theorem coerceColumn_get_null {t : Table} {c : String} {parse : Cell → Option Cell}
    (hmem : c ∈ t.cols) (hfail : ∀ v, parse v = none) :
    ∀ r ∈ (coerceColumn t c parse).rows, Row.get r c = Cell.null := by
  unfold coerceColumn
  rw [if_pos hmem]
  intro r hr
  obtain ⟨r0, _, rfl⟩ := List.mem_map.mp hr
  rw [Row.get_set_self]
  show (parse (Row.get r0 c)).getD Cell.null = Cell.null
  rw [hfail]
  rfl

theorem coerceColumn_null_stable {t : Table} {c c' : String} {parse : Cell → Option Cell}
    (hne : c ≠ c') (hnull : ∀ r ∈ t.rows, Row.get r c = Cell.null) :
    ∀ r ∈ (coerceColumn t c' parse).rows, Row.get r c = Cell.null := by
  unfold coerceColumn
  split
  · intro r hr
    obtain ⟨r0, hr0, rfl⟩ := List.mem_map.mp hr
    rw [Row.get_set_ne _ _ _ _ hne]
    exact hnull r0 hr0
  · exact hnull

/-- C9: the loaders never abort on unparseable dates. Loading preserves
every row, and when every value of a designated date column fails to
parse the loaded column is entirely null — for Meesho's `order_date` and
for each of Amazon's three date columns. -/
theorem claim9_loader_coerces (raw : Table) (parse : Cell → Option Cell)
    (hfail : ∀ v, parse v = none) :
    (load_meesho_data parse raw).rows.length = raw.rows.length ∧
    (load_amazon_data parse raw).rows.length = raw.rows.length ∧
    ("order_date" ∈ (stripTable raw).cols →
      ∀ r ∈ (load_meesho_data parse raw).rows, Row.get r "order_date" = Cell.null) ∧
    (∀ c ∈ amazonDateCols, c ∈ (stripTable raw).cols →
      ∀ r ∈ (load_amazon_data parse raw).rows, Row.get r c = Cell.null) := by
  have hstriplen : (stripTable raw).rows.length = raw.rows.length := by
    simp [stripTable]
  have hadef : load_amazon_data parse raw
      = coerceColumn (coerceColumn (coerceColumn (stripTable raw)
          "Invoice Date" parse) "Order Date" parse) "Shipment Date" parse := rfl
  refine ⟨?_, ?_, ?_, ?_⟩
  · rw [show load_meesho_data parse raw
        = coerceColumn (stripTable raw) "order_date" parse from rfl]
    rw [coerceColumn_rows_length, hstriplen]
  · rw [hadef, coerceColumn_rows_length, coerceColumn_rows_length,
      coerceColumn_rows_length, hstriplen]
  · intro hmem
    exact coerceColumn_get_null hmem hfail
  · intro c hc hmem
    have hm1 : c ∈ (coerceColumn (stripTable raw) "Invoice Date" parse).cols := by
      rw [coerceColumn_cols]; exact hmem
    have hm2 : c ∈ (coerceColumn (coerceColumn (stripTable raw) "Invoice Date" parse)
        "Order Date" parse).cols := by
      rw [coerceColumn_cols]; exact hm1
    rw [hadef]
    rcases (by simpa [amazonDateCols] using hc :
        c = "Invoice Date" ∨ c = "Order Date" ∨ c = "Shipment Date") with rfl | rfl | rfl
    · exact coerceColumn_null_stable (by decide)
        (coerceColumn_null_stable (by decide) (coerceColumn_get_null hmem hfail))
    · exact coerceColumn_null_stable (by decide) (coerceColumn_get_null hm1 hfail)
    · exact coerceColumn_get_null hm2 hfail

/-- Witness for C9: a raw table whose two `order_date` values are both
unparseable loads with both rows intact and an all-null date column. -/
theorem claim9_witness :
    (load_meesho_data (fun _ => none) demoRawDates).rows.length = demoRawDates.rows.length ∧
    ∀ r ∈ (load_meesho_data (fun _ => none) demoRawDates).rows,
      Row.get r "order_date" = Cell.null := by
  obtain ⟨h1, -, h3, -⟩ := claim9_loader_coerces demoRawDates (fun _ => none) (fun _ => rfl)
  exact ⟨h1, h3 (by decide)⟩

theorem groupAggRaw_keys (t : Table) (g : String) (cs : List String) :
    (groupAggRaw t g cs).map Prod.fst = groupKeys t g := by
  unfold groupAggRaw
  rw [List.map_map]
  exact List.map_id'' (fun k => rfl) _

theorem map_get_setColBy_ne (t : Table) (c : String) (f : Row → Cell) {c' : String}
    (h : c' ≠ c) :
    (t.setColBy c f).rows.map (fun r => Row.get r c')
      = t.rows.map (fun r => Row.get r c') := by
  unfold Table.setColBy
  rw [List.map_map]
  exact List.map_congr_left (fun r _ => by
    simp only [Function.comp_apply, Row.get_set_ne _ _ _ _ h])

theorem map_get_meeshoMutate {t : Table} {c : String} (h : c ≠ "month") :
    (meeshoMutate t).rows.map (fun r => Row.get r c)
      = t.rows.map (fun r => Row.get r c) := by
  unfold meeshoMutate
  split
  · exact map_get_setColBy_ne t _ _ h
  · rfl

theorem GroupedBy.congr_rows {gt : List (Cell × List ℚ)} {rows rows' : List Row}
    {g : String} (h : GroupedBy gt rows g)
    (he : rows.map (fun r => Row.get r g) = rows'.map (fun r => Row.get r g)) :
    GroupedBy gt rows' g :=
  ⟨h.1, fun k => (h.2 k).trans (by rw [he])⟩

theorem groupAggRaw_groupedBy (t : Table) (g : String) (cs : List String) :
    GroupedBy (groupAggRaw t g cs) t.rows g :=
  ⟨by rw [groupAggRaw_keys]; exact groupKeys_nodup t g,
   fun k => by rw [groupAggRaw_keys]; exact mem_groupKeys⟩

/-- C1 (counterexample): a Meesho table lacking the `total_invoice_value`
column makes the analyzer fail with `KeyError` instead of degrading that
aggregate to a default and computing the rest. -/
theorem claim1_counterexample :
    analyze_meesho_data demoMeeshoMissing = .error "KeyError" ∧
    demoMeeshoMissing.rows.length = 1 := by decide

/-- C1 (amended): only the optional-column aggregates degrade.  A Meesho
table carrying all unconditionally-accessed columns but no `order_date`
still analyzes, with the `monthly` aggregate omitted; an Amazon table
(with a `Transaction Type` column and the shipment-block columns)
lacking every TCS column still analyzes, with `total_tcs` degrading to
`0`.  A missing unconditionally-accessed column instead fails the whole
per-platform analysis (see the counterexample). -/
theorem claim1_optional_columns_degrade :
    (∀ t : Table, (∀ c ∈ meeshoRequiredCols, c ∈ t.cols) → "order_date" ∉ t.cols →
      ∃ p : MeeshoAnalysis × Table, analyze_meesho_data t = .ok p ∧ p.1.monthly = none) ∧
    (∀ t : Table, "Transaction Type" ∈ t.cols → (∀ c ∈ amazonRequiredCols, c ∈ t.cols) →
      (∀ c ∈ tcsColumns, c ∉ t.cols) →
      ∃ an : AmazonAnalysis, analyze_amazon_data t = .ok an ∧
        (an.shipmentStats.map AmazonShipmentStats.total_tcs).getD 0 = 0) := by
  constructor
  · intro t hreq hod
    refine ⟨_, by rw [analyze_meesho_data, if_pos hreq], ?_⟩
    show (if "order_date" ∈ t.cols
        then some (groupAggRaw (meeshoMutate t) "month" meeshoAggCols) else none) = none
    rw [if_neg hod]
  · intro t htt hreq htcs
    have hfil : tcsColumns.filter (fun c => decide (c ∈ t.cols)) = [] := by
      rw [List.filter_eq_nil_iff]
      intro c hc
      simpa using htcs c hc
    cases he : (txFilter t "Shipment").rows.isEmpty with
    | true =>
      refine ⟨_, by rw [analyze_amazon_data, if_pos htt, if_pos he], ?_⟩
      rfl
    | false =>
      refine ⟨_, by rw [analyze_amazon_data, if_pos htt, if_neg (by simp [he]), if_pos hreq], ?_⟩
      show ((tcsColumns.filter (fun c => decide (c ∈ t.cols))).map
        (fun c => colSumRaw (txFilter t "Shipment") c)).sum = 0
      rw [hfil]
      rfl

unseal Rat.add Rat.mul Rat.inv Rat.sub in
/-- Witness for C1 (amended): the `order_date`-free Meesho demo table
analyzes with `monthly` omitted; the TCS-free Amazon demo table analyzes
with `total_tcs = 0`. -/
theorem claim1_witness :
    Except.map (fun p => p.1.monthly) (analyze_meesho_data demoMeeshoHalfCent) = .ok none ∧
    Except.map (fun an => (an.shipmentStats.map AmazonShipmentStats.total_tcs).getD 0)
      (analyze_amazon_data demoAmazon) = .ok 0 := by
  obtain ⟨p, hp, hm⟩ := claim1_optional_columns_degrade.1 demoMeeshoHalfCent
    (by decide) (by decide)
  obtain ⟨an, ha, ht⟩ := claim1_optional_columns_degrade.2 demoAmazon
    (by decide) (by decide) (by decide)
  rw [hp, ha]
  simp [Except.map, hm, ht]

/-- C2 (counterexample): a Meesho table whose single row has a null
destination state produces an empty `state_wise` grouping — the
null-keyed row is dropped by `groupby`, not kept as its own group. -/
theorem claim2_counterexample :
    Except.map (fun p => p.1.state_wise) (analyze_meesho_data demoMeeshoNull) = .ok [] ∧
    demoMeeshoNull.rows.length = 1 := by decide

/-- C2 (amended): every grouped aggregate — Meesho's state, product-code,
tax-rate and month tables as well as Amazon's state, product-code and
month tables — has exactly one group per distinct non-null value of its
grouping column among the rows its `groupby` received (the stored Meesho
frame, resp. the Shipment partition, with the month groupings reading
the derived `month` column of the mutated frame/copy); rows whose group
key is null are dropped (pandas `dropna=True` default), not grouped
under the null key. -/
theorem claim2_groups_are_distinct_nonnull_keys :
    (∀ (t : Table) (p : MeeshoAnalysis × Table), analyze_meesho_data t = .ok p →
      GroupedBy p.1.state_wise t.rows "end_customer_state_new" ∧
      GroupedBy p.1.product_performance t.rows "hsn_code" ∧
      GroupedBy p.1.tax_rate_analysis t.rows "gst_rate" ∧
      ∀ m, p.1.monthly = some m → GroupedBy m p.2.rows "month") ∧
    (∀ (t : Table) (an : AmazonAnalysis) (st : AmazonShipmentStats),
      analyze_amazon_data t = .ok an → an.shipmentStats = some st →
      GroupedBy st.state_wise (txFilter t "Shipment").rows "Ship To State" ∧
      GroupedBy st.product_performance (txFilter t "Shipment").rows "Hsn/sac" ∧
      ∀ m, st.monthly = some m →
        GroupedBy m (amazonMutate (txFilter t "Shipment")).rows "month") := by
  constructor
  · intro t p h
    obtain ⟨-, h2, h1⟩ := analyze_meesho_ok h
    have hsw : p.1.state_wise = groupAggRaw t "end_customer_state_new" meeshoAggCols := by
      rw [h1]
    have hpp : p.1.product_performance
        = groupAggRaw (meeshoMutate t) "hsn_code" meeshoAggCols := by
      rw [h1]
    have htr : p.1.tax_rate_analysis
        = groupAggRaw (meeshoMutate t) "gst_rate" meeshoAggCols := by
      rw [h1]
    have hmon : p.1.monthly = (if "order_date" ∈ t.cols
        then some (groupAggRaw (meeshoMutate t) "month" meeshoAggCols) else none) := by
      rw [h1]
    refine ⟨?_, ?_, ?_, ?_⟩
    · rw [hsw]
      exact groupAggRaw_groupedBy t _ _
    · rw [hpp]
      exact (groupAggRaw_groupedBy (meeshoMutate t) _ _).congr_rows
        (map_get_meeshoMutate (by decide))
    · rw [htr]
      exact (groupAggRaw_groupedBy (meeshoMutate t) _ _).congr_rows
        (map_get_meeshoMutate (by decide))
    · intro m hm
      rw [hmon] at hm
      by_cases hod : "order_date" ∈ t.cols
      · rw [if_pos hod] at hm
        obtain rfl := Option.some.inj hm
        rw [h2]
        exact groupAggRaw_groupedBy (meeshoMutate t) _ _
      · rw [if_neg hod] at hm
        cases hm
  · intro t an st h hsome
    obtain ⟨-, -, -, -, hn, hs⟩ := analyze_amazon_ok h
    cases he : (txFilter t "Shipment").rows.isEmpty with
    | true => rw [hn he] at hsome; cases hsome
    | false =>
      obtain ⟨-, hstats⟩ := hs he
      obtain rfl := Option.some.inj (hstats.symm.trans hsome)
      refine ⟨groupAggRaw_groupedBy (txFilter t "Shipment") _ _,
        groupAggRaw_groupedBy (txFilter t "Shipment") _ _, ?_⟩
      intro m hm
      replace hm : (if "Order Date" ∈ t.cols
          then some (groupAggRaw (amazonMutate (txFilter t "Shipment")) "month" amazonAggCols)
          else none) = some m := hm
      by_cases hod : "Order Date" ∈ t.cols
      · rw [if_pos hod] at hm
        obtain rfl := Option.some.inj hm
        exact groupAggRaw_groupedBy (amazonMutate (txFilter t "Shipment")) _ _
      · rw [if_neg hod] at hm
        cases hm

unseal Rat.add Rat.mul Rat.inv Rat.sub in
/-- Witness for C2: on the demo tables every grouped aggregate of both
platforms satisfies the grouping invariant — shown here for the Meesho
state and product groupings and the Amazon state and product groupings
of the concrete analysis results. -/
theorem claim2_witness :
    GroupedBy demoMeeshoResult.1.state_wise demoMeesho.rows "end_customer_state_new" ∧
    GroupedBy demoMeeshoResult.1.product_performance demoMeesho.rows "hsn_code" ∧
    GroupedBy demoAmazonStats.state_wise (txFilter demoAmazon "Shipment").rows "Ship To State" ∧
    GroupedBy demoAmazonStats.product_performance (txFilter demoAmazon "Shipment").rows "Hsn/sac" := by
  obtain ⟨hm1, hm2, -, -⟩ := claim2_groups_are_distinct_nonnull_keys.1
    demoMeesho demoMeeshoResult (by decide)
  obtain ⟨ha1, ha2, -⟩ := claim2_groups_are_distinct_nonnull_keys.2
    demoAmazon demoAmazonAnalysis demoAmazonStats (by decide) (by decide)
  exact ⟨hm1, hm2, ha1, ha2⟩

unseal Rat.add Rat.mul Rat.inv Rat.sub in
/-- C3 (counterexample): with a null group key the grouped invoice sums
(0) no longer add up to the scalar `total_sales` (100): the null-keyed
row is dropped from the grouping but kept in the scalar sum. -/
theorem claim3_counterexample :
    Except.map (fun p => ((p.1.state_wise.map (fun row => row.2.headD 0)).sum, p.1.total_sales))
      (analyze_meesho_data demoMeeshoNull) = .ok (0, 100) ∧ (0 : ℚ) ≠ 100 := by decide

/-- C3 (amended): conservation of totals holds on the rows the grouping
keeps: when every row has a non-null group key and every invoice value
is a two-decimal quantity (so the per-group `.round(2)` is the
identity), the state-wise invoice sums add up to `total_sales`. -/
theorem claim3_conservation_of_totals (t : Table) (p : MeeshoAnalysis × Table)
    (h : analyze_meesho_data t = .ok p)
    (hkeys : ∀ r ∈ t.rows, Row.get r "end_customer_state_new" ≠ Cell.null)
    (hcents : ∀ r ∈ t.rows, IsCentile (Row.get r "total_invoice_value").toQ) :
    (p.1.state_wise.map (fun row => row.2.headD 0)).sum = p.1.total_sales := by
  obtain ⟨-, -, hp⟩ := analyze_meesho_ok h
  have hsw : p.1.state_wise = groupAggRaw t "end_customer_state_new" meeshoAggCols := by
    rw [hp]
  have hts : p.1.total_sales = colSumRaw t "total_invoice_value" := by
    rw [hp]
  rw [hsw, hts]
  unfold groupAggRaw
  rw [List.map_map]
  have hmap : ∀ k ∈ groupKeys t "end_customer_state_new",
      ((fun row : Cell × List ℚ => row.2.headD 0)
          ∘ fun k => (k, meeshoAggCols.map
              (fun c => round2 (groupSum t "end_customer_state_new" k c)))) k
        = groupSum t "end_customer_state_new" k "total_invoice_value" := by
    intro k _
    show round2 (groupSum t "end_customer_state_new" k "total_invoice_value") = _
    apply round2_eq_self
    apply IsCentile.sum
    intro q hq
    obtain ⟨r, hr, rfl⟩ := List.mem_map.mp hq
    exact hcents r (List.mem_of_mem_filter hr)
  rw [List.map_congr_left hmap]
  exact sum_groupSum "total_invoice_value" hkeys

unseal Rat.add Rat.mul Rat.inv Rat.sub in
/-- Witness for C3, the spec's Meesho example: all states non-null, all
values whole rupees, and the state sums (150 + 200) equal
`total_sales = 350`. -/
theorem claim3_witness :
    (demoMeeshoResult.1.state_wise.map (fun row => row.2.headD 0)).sum
      = demoMeeshoResult.1.total_sales ∧
    demoMeeshoResult.1.total_sales = 350 := by
  refine ⟨claim3_conservation_of_totals demoMeesho demoMeeshoResult (by decide) (by decide) ?_,
    by decide⟩
  intro r hr
  simp only [demoMeesho, List.mem_cons, List.not_mem_nil, or_false] at hr
  rcases hr with rfl | rfl | rfl
  · exact ⟨10000, by decide⟩
  · exact ⟨5000, by decide⟩
  · exact ⟨20000, by decide⟩

unseal Rat.add Rat.mul Rat.inv Rat.sub in
/-- C4 (counterexample): the scalar sums are not rounded: a single
invoice value of `0.005` makes `total_sales = 0.005`, which two-decimal
rounding would have turned into `0`. -/
theorem claim4_counterexample :
    Except.map (fun p => p.1.total_sales) (analyze_meesho_data demoMeeshoHalfCent)
      = .ok (1/200) ∧
    round2 (1/200) ≠ (1/200 : ℚ) := by decide

theorem groupAggRaw_entries_centile (t : Table) (g : String) (cs : List String) :
    ∀ row ∈ groupAggRaw t g cs, ∀ q ∈ row.2, IsCentile q := by
  intro row hrow q hq
  obtain ⟨k, -, rfl⟩ := List.mem_map.mp hrow
  obtain ⟨c, -, rfl⟩ := List.mem_map.mp hq
  exact round2_centile _

/-- C4 (amended): only the grouped tables are rounded — every numeric
entry of every grouped aggregate of both analyzers is a two-decimal
quantity (`.round(2)` applied), while every scalar sum (Meesho's
`total_sales`, `total_tax`, `taxable_sales`; Amazon's `total_sales`,
`total_tax`, `tax_exclusive_gross`, `total_tcs`) is the raw, unrounded
sum. -/
theorem claim4_grouped_rounded_scalar_raw :
    (∀ (t : Table) (p : MeeshoAnalysis × Table), analyze_meesho_data t = .ok p →
      (∀ row ∈ p.1.state_wise ++ p.1.product_performance ++ p.1.tax_rate_analysis,
        ∀ q ∈ row.2, IsCentile q) ∧
      (∀ m, p.1.monthly = some m → ∀ row ∈ m, ∀ q ∈ row.2, IsCentile q) ∧
      p.1.total_sales = colSumRaw t "total_invoice_value" ∧
      p.1.total_tax = colSumRaw t "tax_amount" ∧
      p.1.taxable_sales = colSumRaw t "total_taxable_sale_value") ∧
    (∀ (t : Table) (an : AmazonAnalysis) (st : AmazonShipmentStats),
      analyze_amazon_data t = .ok an → an.shipmentStats = some st →
      (∀ row ∈ st.state_wise ++ st.product_performance, ∀ q ∈ row.2, IsCentile q) ∧
      (∀ m, st.monthly = some m → ∀ row ∈ m, ∀ q ∈ row.2, IsCentile q) ∧
      st.total_sales = colSumRaw (txFilter t "Shipment") "Invoice Amount" ∧
      st.total_tax = colSumRaw (txFilter t "Shipment") "Total Tax Amount" ∧
      st.tax_exclusive_gross = colSumRaw (txFilter t "Shipment") "Tax Exclusive Gross" ∧
      st.total_tcs = ((tcsColumns.filter (fun c => c ∈ t.cols)).map
          (fun c => colSumRaw (txFilter t "Shipment") c)).sum) := by
  constructor
  · intro t p h
    obtain ⟨-, -, hp⟩ := analyze_meesho_ok h
    refine ⟨?_, ?_, by rw [hp], by rw [hp], by rw [hp]⟩
    · intro row hrow
      have hsw : p.1.state_wise = groupAggRaw t "end_customer_state_new" meeshoAggCols := by
        rw [hp]
      have hpp : p.1.product_performance
          = groupAggRaw (meeshoMutate t) "hsn_code" meeshoAggCols := by
        rw [hp]
      have htr : p.1.tax_rate_analysis
          = groupAggRaw (meeshoMutate t) "gst_rate" meeshoAggCols := by
        rw [hp]
      rcases List.mem_append.mp hrow with hrow' | hrow'
      · rcases List.mem_append.mp hrow' with hrow'' | hrow''
        · exact groupAggRaw_entries_centile _ _ _ row (hsw ▸ hrow'')
        · exact groupAggRaw_entries_centile _ _ _ row (hpp ▸ hrow'')
      · exact groupAggRaw_entries_centile _ _ _ row (htr ▸ hrow')
    · intro m hm
      have hmon : p.1.monthly = (if "order_date" ∈ t.cols
          then some (groupAggRaw (meeshoMutate t) "month" meeshoAggCols) else none) := by
        rw [hp]
      rw [hmon] at hm
      by_cases hod : "order_date" ∈ t.cols
      · rw [if_pos hod] at hm
        obtain rfl := Option.some.inj hm
        exact groupAggRaw_entries_centile _ _ _
      · rw [if_neg hod] at hm
        cases hm
  · intro t an st h hsome
    obtain ⟨-, -, -, -, hn, hs⟩ := analyze_amazon_ok h
    cases he : (txFilter t "Shipment").rows.isEmpty with
    | true => rw [hn he] at hsome; cases hsome
    | false =>
      obtain ⟨-, hstats⟩ := hs he
      obtain rfl := Option.some.inj (hstats.symm.trans hsome)
      refine ⟨?_, ?_, rfl, rfl, rfl, rfl⟩
      · intro row hrow
        rcases List.mem_append.mp hrow with hrow' | hrow'
        · exact groupAggRaw_entries_centile _ _ _ row hrow'
        · exact groupAggRaw_entries_centile _ _ _ row hrow'
      · intro m hm
        replace hm : (if "Order Date" ∈ t.cols
            then some (groupAggRaw (amazonMutate (txFilter t "Shipment")) "month" amazonAggCols)
            else none) = some m := hm
        by_cases hod : "Order Date" ∈ t.cols
        · rw [if_pos hod] at hm
          obtain rfl := Option.some.inj hm
          exact groupAggRaw_entries_centile _ _ _
        · rw [if_neg hod] at hm
          cases hm

unseal Rat.add Rat.mul Rat.inv Rat.sub in
/-- Witness for C4: on the demo tables Meesho's scalar `total_sales` and
Amazon's shipment-block `total_sales` are the raw column sums, and every
entry of the Meesho and Amazon state-wise tables is a two-decimal
quantity. -/
theorem claim4_witness :
    demoMeeshoResult.1.total_sales = colSumRaw demoMeesho "total_invoice_value" ∧
    (∀ row ∈ demoMeeshoResult.1.state_wise, ∀ q ∈ row.2, IsCentile q) ∧
    demoAmazonStats.total_sales = colSumRaw (txFilter demoAmazon "Shipment") "Invoice Amount" ∧
    (∀ row ∈ demoAmazonStats.state_wise, ∀ q ∈ row.2, IsCentile q) := by
  have hm := claim4_grouped_rounded_scalar_raw.1 demoMeesho demoMeeshoResult (by decide)
  have ha := claim4_grouped_rounded_scalar_raw.2 demoAmazon demoAmazonAnalysis demoAmazonStats
    (by decide) (by decide)
  exact ⟨hm.2.2.1, fun row hrow =>
      hm.1 row (List.mem_append_left _ (List.mem_append_left _ hrow)),
    ha.2.2.1, fun row hrow => ha.1 row (List.mem_append_left _ hrow)⟩

unseal Rat.add Rat.mul Rat.inv Rat.sub in
/-- C8 (counterexample): a successful Meesho analysis is not
frame-preserving: on a table with an `order_date` column the stored
table after the run differs from the input (a `month` column has been
added). -/
theorem claim8_counterexample :
    Except.map (fun p => decide (p.2 = demoMeesho)) (analyze_meesho_data demoMeesho)
      = .ok false := by decide

/-- C8 (amended): the analyzer is a deterministic function of the stored
table, but it mutates that table (adding the derived `month` column).
The mutation is self-stabilizing: re-running the analyzer on the table a
successful run left behind returns the identical analysis and the
identical table. -/
theorem claim8_rerun_stable (t : Table) (p : MeeshoAnalysis × Table)
    (h : analyze_meesho_data t = .ok p) :
    analyze_meesho_data p.2 = .ok p := by
  obtain ⟨hreq, h2, h1⟩ := analyze_meesho_ok h
  obtain ⟨a, t'⟩ := p
  simp only at h1 h2
  subst h1 h2
  have hreq' : ∀ c ∈ meeshoRequiredCols, c ∈ (meeshoMutate t).cols := by
    intro c hc
    have hcm : c ≠ "month" := by
      rcases (by simpa [meeshoRequiredCols] using hc :
          c = "total_invoice_value" ∨ c = "tax_amount" ∨ c = "total_taxable_sale_value" ∨
          c = "end_customer_state_new" ∨ c = "quantity" ∨ c = "hsn_code" ∨ c = "gst_rate")
        with rfl | rfl | rfl | rfl | rfl | rfl | rfl <;> decide
    exact (mem_meeshoMutate_cols hcm).mpr (hreq c hc)
  rw [analyze_meesho_data, if_pos hreq']
  simp only [meeshoMutate_idem, meeshoMutate_rows_length,
    colSumRaw_meeshoMutate (show ("total_invoice_value" : String) ≠ "month" by decide),
    colSumRaw_meeshoMutate (show ("tax_amount" : String) ≠ "month" by decide),
    colSumRaw_meeshoMutate (show ("total_taxable_sale_value" : String) ≠ "month" by decide),
    groupAggRaw_meeshoMutate (show ("end_customer_state_new" : String) ≠ "month" by decide)
      (show ∀ c ∈ meeshoAggCols, c ≠ "month" by decide),
    mem_meeshoMutate_cols (show ("order_date" : String) ≠ "month" by decide)]

unseal Rat.add Rat.mul Rat.inv Rat.sub in
/-- Witness for C8: re-running the analyzer on the mutated demo table
reproduces the identical analysis-and-table pair. -/
theorem claim8_witness :
    analyze_meesho_data demoMeeshoResult.2 = .ok demoMeeshoResult :=
  claim8_rerun_stable demoMeesho demoMeeshoResult (by decide)
